import Mathlib

/-!
Verification of the manifest-generation core of the nexlayer-mcp repository.

The embedding follows the TypeScript source:
* `src/types/nexlayer.ts` — the data model (`NexlayerYaml`, `PodConfig`,
  `SecretConfig`, `NexlayerConfig`, `ValidationResult`) and the
  `NexlayerApiClient` helpers `generateYaml` / `yamlToString`, plus the
  remote-delegating `validateYaml`.
* `src/services/file-generator.ts` — `FileGenerator.generateNexlayerYaml`.
* `src/index.ts` — the module-level `getClient` cache.

TypeScript `T | undefined` fields become `Option`; `Record<string, string>`
becomes an insertion-ordered association list; JavaScript template
interpolation of a number becomes decimal printing (`natToString`); the
remote HTTP endpoint consumed by `validateYaml` becomes an explicit oracle
argument.
-/

/-- Decimal digit to character, modelling JavaScript number printing. -/
def digitChar (d : Nat) : Char :=
  match d with
  | 0 => '0' | 1 => '1' | 2 => '2' | 3 => '3' | 4 => '4'
  | 5 => '5' | 6 => '6' | 7 => '7' | 8 => '8' | 9 => '9'
  | _ => '*'

/-- Fuel-driven big-endian decimal digits of `n` (fuel ≥ n suffices). -/
def natToCharsAux : Nat → Nat → List Char
  | 0, _ => []
  | fuel + 1, n =>
    if n < 10 then [digitChar n]
    else natToCharsAux fuel (n / 10) ++ [digitChar (n % 10)]

/-- Decimal character representation of a natural number, as JavaScript
template interpolation `\x7b$port\x7d` prints an integral number. -/
def natToChars (n : Nat) : List Char :=
  natToCharsAux (n + 1) n

/-- Decimal string of a natural number (JavaScript integral `Number` to
string conversion, used for `servicePorts` entries). -/
def natToString (n : Nat) : String :=
  ⟨natToChars n⟩

/-- `SecretConfig` from `src/types/nexlayer.ts`. -/
structure SecretConfig where
  name : String
  data : String
  mountPath : String
  fileName : String
deriving DecidableEq

/-- `PodConfig` from `src/types/nexlayer.ts`: optional fields are `Option`,
`vars : Record<string, string>` is an insertion-ordered association list. -/
structure PodConfig where
  name : String
  image : String
  servicePorts : Option (List Nat) := none
  vars : Option (List (String × String)) := none
  secrets : Option (List SecretConfig) := none
deriving DecidableEq

/-- The anonymous `application` object inside `NexlayerYaml`. -/
structure ApplicationConfig where
  name : String
  pods : List PodConfig
deriving DecidableEq

/-- `NexlayerYaml` from `src/types/nexlayer.ts`. -/
structure NexlayerYaml where
  application : ApplicationConfig
deriving DecidableEq

/-- `NexlayerConfig` from `src/types/nexlayer.ts`. -/
structure NexlayerConfig where
  sessionToken : Option String := none
  baseUrl : Option String := none
deriving DecidableEq

/-- `ValidationResult` from `src/types/nexlayer.ts`. -/
structure ValidationResult where
  valid : Bool
  errors : Option (List String) := none
  warnings : Option (List String) := none
deriving DecidableEq

namespace NexlayerApiClient

/-- `NexlayerApiClient.yamlToString` (src/types/nexlayer.ts lines 404-439):
sequential string concatenation over the pod list; a guarded section is
emitted for each of `servicePorts`, `vars`, `secrets` only when the field
is present and non-empty. -/
def yamlToString (yaml : NexlayerYaml) : String :=
  let yamlString := "application:\n"
  let yamlString := yamlString ++ "  name: \"" ++ yaml.application.name ++ "\"\n"
  let yamlString := yamlString ++ "  pods:\n"
  yaml.application.pods.foldl (fun yamlString pod =>
    let yamlString := yamlString ++ "    - name: \"" ++ pod.name ++ "\"\n"
    let yamlString := yamlString ++ "      image: \"" ++ pod.image ++ "\"\n"
    let yamlString :=
      match pod.servicePorts with
      | some ports =>
        if ports.length > 0 then
          ports.foldl (fun s port => s ++ "        - " ++ natToString port ++ "\n")
            (yamlString ++ "      servicePorts:\n")
        else yamlString
      | none => yamlString
    let yamlString :=
      match pod.vars with
      | some vs =>
        if vs.length > 0 then
          vs.foldl (fun s kv => s ++ "        " ++ kv.1 ++ ": \"" ++ kv.2 ++ "\"\n")
            (yamlString ++ "      vars:\n")
        else yamlString
      | none => yamlString
    match pod.secrets with
    | some secrets =>
      if secrets.length > 0 then
        secrets.foldl (fun s secret =>
          s ++ "        - name: \"" ++ secret.name ++ "\"\n"
            ++ "          data: \"" ++ secret.data ++ "\"\n"
            ++ "          mountPath: \"" ++ secret.mountPath ++ "\"\n"
            ++ "          fileName: \"" ++ secret.fileName ++ "\"\n")
          (yamlString ++ "      secrets:\n")
      else yamlString
    | none => yamlString
  ) yamlString

/-- `NexlayerApiClient.generateYaml` (src/types/nexlayer.ts lines 392-401):
wraps the parameters into a `NexlayerYaml` and serializes it; no
validation of any kind is performed. -/
def generateYaml (applicationName : String) (pods : List PodConfig) : String :=
  let yaml : NexlayerYaml := { application := { name := applicationName, pods := pods } }
  yamlToString yaml

/-- `NexlayerApiClient.validateYaml` (src/types/nexlayer.ts lines 368-378):
POSTs the manifest text to the remote `/validate` endpoint and returns the
remote answer; a transport failure is wrapped in an error message. The
remote endpoint is modelled as an explicit oracle argument. -/
def validateYaml (remote : String → Except String ValidationResult)
    (yamlContent : String) : Except String ValidationResult :=
  match remote yamlContent with
  | Except.ok result => Except.ok result
  | Except.error e => Except.error ("Failed to validate YAML: " ++ e)

end NexlayerApiClient

namespace FileGenerator

/-- `FileGenerator.generateNexlayerYaml` (src/services/file-generator.ts
lines 50-79): unquoted scalars, a `description` line, a top-level `pods:`
key that is a sibling of `application:`, and no handling of `secrets`. -/
def generateNexlayerYaml (applicationName : String) (pods : List PodConfig) : String :=
  let yaml := "application:\n  name: " ++ applicationName
    ++ "\n  description: " ++ applicationName ++ " application\n\npods:"
  pods.foldl (fun yaml pod =>
    let yaml := yaml ++ "\n  - name: " ++ pod.name
    let yaml := yaml ++ "\n    image: " ++ pod.image
    let yaml :=
      match pod.servicePorts with
      | some ports =>
        if ports.length > 0 then
          ports.foldl (fun s port => s ++ "\n      - " ++ natToString port)
            (yaml ++ "\n    servicePorts:")
        else yaml
      | none => yaml
    match pod.vars with
    | some vs =>
      if vs.length > 0 then
        vs.foldl (fun s kv => s ++ "\n      " ++ kv.1 ++ ": " ++ kv.2)
          (yaml ++ "\n    vars:")
      else yaml
    | none => yaml
  ) yaml

end FileGenerator

/-- The module-level `getClient` of `src/index.ts` (lines 32-40 and 835-843):
the first call constructs a client from the supplied session token and the
fixed base URL and caches it; every later call returns the cached client
unchanged, ignoring its `sessionToken` argument. Modelled as a state
transformer on the cached configuration. -/
def getClient (nexlayerClient : Option NexlayerConfig) (sessionToken : Option String) :
    NexlayerConfig × Option NexlayerConfig :=
  match nexlayerClient with
  | none =>
    let c : NexlayerConfig :=
      { sessionToken := sessionToken, baseUrl := some "https://app.nexlayer.io" }
    (c, some c)
  | some c => (c, some c)

/-! ## Canonical decomposition of the serializers

The source builds its output by appending to a string accumulator inside
loops.  The following definitions give the same output as an explicit
concatenation of per-item blocks; the bridge lemmas prove the two forms
equal, so theorems can be stated over the readable form. -/

/-- Concatenation of a list of strings. -/
def joinStrings : List String → String
  | [] => ""
  | s :: l => s ++ joinStrings l

/-- The `servicePorts` section of a pod block in
`NexlayerApiClient.yamlToString`: omitted when absent or empty. -/
def portsSection : Option (List Nat) → String
  | some ports =>
    if ports.length > 0 then
      "      servicePorts:\n" ++
        joinStrings (ports.map (fun port => "        - " ++ natToString port ++ "\n"))
    else ""
  | none => ""

/-- The `vars` section of a pod block in `NexlayerApiClient.yamlToString`:
omitted when absent or empty; keys unquoted, values quoted. -/
def varsSection : Option (List (String × String)) → String
  | some vs =>
    if vs.length > 0 then
      "      vars:\n" ++
        joinStrings (vs.map (fun kv => "        " ++ kv.1 ++ ": \"" ++ kv.2 ++ "\"\n"))
    else ""
  | none => ""

/-- One secret entry in `NexlayerApiClient.yamlToString`. -/
def secretBlock (secret : SecretConfig) : String :=
  "        - name: \"" ++ secret.name ++ "\"\n"
    ++ "          data: \"" ++ secret.data ++ "\"\n"
    ++ "          mountPath: \"" ++ secret.mountPath ++ "\"\n"
    ++ "          fileName: \"" ++ secret.fileName ++ "\"\n"

/-- The `secrets` section of a pod block in
`NexlayerApiClient.yamlToString`: omitted when absent or empty. -/
def secretsSection : Option (List SecretConfig) → String
  | some secrets =>
    if secrets.length > 0 then
      "      secrets:\n" ++ joinStrings (secrets.map secretBlock)
    else ""
  | none => ""

/-- One pod block of `NexlayerApiClient.yamlToString`: fields in the order
`name`, `image`, `servicePorts`, `vars`, `secrets`. -/
def podBlock (pod : PodConfig) : String :=
  "    - name: \"" ++ pod.name ++ "\"\n"
    ++ "      image: \"" ++ pod.image ++ "\"\n"
    ++ portsSection pod.servicePorts
    ++ varsSection pod.vars
    ++ secretsSection pod.secrets

/-- All pod blocks of `NexlayerApiClient.yamlToString`, in order. -/
def podsBlocks (pods : List PodConfig) : String :=
  joinStrings (pods.map podBlock)

/-- The `servicePorts` section of `FileGenerator.generateNexlayerYaml`. -/
def fgPortsSection : Option (List Nat) → String
  | some ports =>
    if ports.length > 0 then
      "\n    servicePorts:" ++
        joinStrings (ports.map (fun port => "\n      - " ++ natToString port))
    else ""
  | none => ""

/-- The `vars` section of `FileGenerator.generateNexlayerYaml`. -/
def fgVarsSection : Option (List (String × String)) → String
  | some vs =>
    if vs.length > 0 then
      "\n    vars:" ++
        joinStrings (vs.map (fun kv => "\n      " ++ kv.1 ++ ": " ++ kv.2))
    else ""
  | none => ""

/-- One pod block of `FileGenerator.generateNexlayerYaml`: unquoted
scalars, fields in the order `name`, `image`, `servicePorts`, `vars`;
`secrets` is never rendered. -/
def fgPodBlock (pod : PodConfig) : String :=
  "\n  - name: " ++ pod.name
    ++ "\n    image: " ++ pod.image
    ++ fgPortsSection pod.servicePorts
    ++ fgVarsSection pod.vars

/-- All pod blocks of `FileGenerator.generateNexlayerYaml`, in order. -/
def fgPodsBlocks (pods : List PodConfig) : String :=
  joinStrings (pods.map fgPodBlock)

/-- Split a character list into lines at `'\n'`; a final segment after the
last newline is kept only when non-empty, so text ending in a newline
yields exactly its lines. -/
def splitLines : List Char → List (List Char)
  | [] => []
  | c :: cs =>
    if c = '\n' then [] :: splitLines cs
    else
      match splitLines cs with
      | [] => [[c]]
      | l :: ls => (c :: l) :: ls

/-! ## A parser for the rendered manifest format

The repository contains no `parse`; §4.2 of the spec nevertheless demands
one ("`parse(text) → Application | fails(ParseError)`: inverse operation;
must accept the output of `render`").  The parser below is therefore
modelled from the spec's format grammar (§6) and from the exact text
`yamlToString` emits.  It works line by line over the character list of
the input. -/

/-- Decimal digit value of a character, if any. -/
def charDigit? (c : Char) : Option Nat :=
  if 48 ≤ c.toNat ∧ c.toNat ≤ 57 then some (c.toNat - 48) else none

/-- Accumulating decimal reader. -/
def readNatAux : Nat → List Char → Option Nat
  | acc, [] => some acc
  | acc, c :: cs =>
    match charDigit? c with
    | some d => readNatAux (acc * 10 + d) cs
    | none => none

/-- Read a non-empty all-digit character list as a natural number. -/
def readNat : List Char → Option Nat
  | [] => none
  | cs => readNatAux 0 cs

/-- Strip an expected leading character sequence, returning the remainder. -/
def dropPre : List Char → List Char → Option (List Char)
  | [], l => some l
  | _ :: _, [] => none
  | p :: ps, c :: cs => if p = c then dropPre ps cs else none

/-- Strip an expected leading sequence and a closing double quote,
returning the quoted content (which may itself contain quotes). -/
def stripQuoted (pre l : List Char) : Option (List Char) :=
  match dropPre pre l with
  | some rest =>
    match rest.getLast? with
    | some '"' => some rest.dropLast
    | _ => none
  | none => none

/-- Split at the first colon. -/
def splitAtColon : List Char → Option (List Char × List Char)
  | [] => none
  | c :: cs =>
    if c = ':' then some ([], cs)
    else
      match splitAtColon cs with
      | some (k, r) => some (c :: k, r)
      | none => none

/-- Parse one `KEY: "value"` line of a `vars:` section (8-space indent). -/
def parseVarLine (l : List Char) : Option (String × String) :=
  match dropPre "        ".data l with
  | some rest =>
    match splitAtColon rest with
    | some (k, r) =>
      match dropPre " \"".data r with
      | some v =>
        match v.getLast? with
        | some '"' => some (⟨k⟩, ⟨v.dropLast⟩)
        | _ => none
      | none => none
    | none => none
  | none => none

/-- Consume consecutive `        - <int>` item lines. -/
def parsePortItems : List (List Char) → Option (List Nat × List (List Char))
  | [] => some ([], [])
  | l :: ls =>
    match dropPre "        - ".data l with
    | some ds =>
      match readNat ds with
      | some p =>
        match parsePortItems ls with
        | some (ps, rest) => some (p :: ps, rest)
        | none => none
      | none => none
    | none => some ([], l :: ls)

/-- Consume consecutive 8-space-indented `KEY: "value"` lines. -/
def parseVarItems : List (List Char) → Option (List (String × String) × List (List Char))
  | [] => some ([], [])
  | l :: ls =>
    match dropPre "        ".data l with
    | some _ =>
      match parseVarLine l with
      | some kv =>
        match parseVarItems ls with
        | some (kvs, rest) => some (kv :: kvs, rest)
        | none => none
      | none => none
    | none => some ([], l :: ls)

/-- Consume consecutive four-line secret entries. -/
def parseSecretItems : List (List Char) → Option (List SecretConfig × List (List Char))
  | [] => some ([], [])
  | l1 :: ls =>
    match stripQuoted "        - name: \"".data l1 with
    | some nm =>
      match ls with
      | l2 :: l3 :: l4 :: ls4 =>
        match stripQuoted "          data: \"".data l2,
              stripQuoted "          mountPath: \"".data l3,
              stripQuoted "          fileName: \"".data l4 with
        | some d, some mp, some fn =>
          match parseSecretItems ls4 with
          | some (ss, rest) => some (⟨⟨nm⟩, ⟨d⟩, ⟨mp⟩, ⟨fn⟩⟩ :: ss, rest)
          | none => none
        | _, _, _ => none
      | _ => none
    | none => some ([], l1 :: ls)

/-- Parse an optional section: when the next line is the given header,
consume it and the section's item lines; otherwise produce `none` and
leave the input untouched. -/
def sectionStep {α : Type} (header : List Char)
    (items : List (List Char) → Option (α × List (List Char)))
    (ls : List (List Char)) : Option (Option α × List (List Char)) :=
  match ls with
  | hd :: tl =>
    if hd = header then
      match items tl with
      | some (x, rest) => some (some x, rest)
      | none => none
    else some (none, hd :: tl)
  | [] => some (none, [])

/-- Parse the pod list: each pod is a `- name:` line, an `image:` line and
optional `servicePorts`/`vars`/`secrets` sections; the fuel bounds the
number of pods (one unit is spent per pod). -/
def parsePodsAux : Nat → List (List Char) → Option (List PodConfig)
  | 0, _ => none
  | _ + 1, [] => some []
  | fuel + 1, l :: ls =>
    match stripQuoted "    - name: \"".data l with
    | none => none
    | some nm =>
      match ls with
      | [] => none
      | l2 :: ls2 =>
        match stripQuoted "      image: \"".data l2 with
        | none => none
        | some img =>
          match sectionStep "      servicePorts:".data parsePortItems ls2 with
          | none => none
          | some (ports, ls3) =>
            match sectionStep "      vars:".data parseVarItems ls3 with
            | none => none
            | some (vs, ls4) =>
              match sectionStep "      secrets:".data parseSecretItems ls4 with
              | none => none
              | some (ss, ls5) =>
                match parsePodsAux fuel ls5 with
                | some pods => some (⟨⟨nm⟩, ⟨img⟩, ports, vs, ss⟩ :: pods)
                | none => none

/-- Modelled from the spec: the repository has no `parse` operation, but
§4.2 requires `parse(text) → Application | fails(ParseError)`, the inverse
of `render`, accepting `render`'s output.  This parser accepts exactly the
shape `NexlayerApiClient.yamlToString` emits: the `application:` header,
a quoted `name:` line, the `pods:` header and the pod blocks.  `Option`
stands for the `ParseError` failure mode. -/
def parseManifest (text : String) : Option NexlayerYaml :=
  match splitLines text.data with
  | l1 :: l2 :: l3 :: rest =>
    if l1 = "application:".data then
      match stripQuoted "  name: \"".data l2 with
      | some nm =>
        if l3 = "  pods:".data then
          match parsePodsAux (rest.length + 1) rest with
          | some pods => some ⟨⟨⟨nm⟩, pods⟩⟩
          | none => none
        else none
      | none => none
    else none
  | _ => none

/-! ## Character-level line decomposition of the rendered text -/

/-- The `servicePorts` lines of a pod block, as character lists. -/
def portsCharLines : Option (List Nat) → List (List Char)
  | some ports =>
    if ports.length > 0 then
      "      servicePorts:".data :: ports.map (fun port => "        - ".data ++ natToChars port)
    else []
  | none => []

/-- The `vars` lines of a pod block, as character lists. -/
def varsCharLines : Option (List (String × String)) → List (List Char)
  | some vs =>
    if vs.length > 0 then
      "      vars:".data ::
        vs.map (fun kv => "        ".data ++ kv.1.data ++ ':' :: ' ' :: '"' :: (kv.2.data ++ ['"']))
    else []
  | none => []

/-- The four lines of one secret entry, as character lists. -/
def secretCharLines (sc : SecretConfig) : List (List Char) :=
  [ "        - name: \"".data ++ sc.name.data ++ ['"'],
    "          data: \"".data ++ sc.data.data ++ ['"'],
    "          mountPath: \"".data ++ sc.mountPath.data ++ ['"'],
    "          fileName: \"".data ++ sc.fileName.data ++ ['"'] ]

/-- The `secrets` lines of a pod block, as character lists. -/
def secretsCharLines : Option (List SecretConfig) → List (List Char)
  | some ss =>
    if ss.length > 0 then
      "      secrets:".data :: (ss.map secretCharLines).flatten
    else []
  | none => []

/-- The lines of one pod block, as character lists. -/
def podCharLines (pod : PodConfig) : List (List Char) :=
  ("    - name: \"".data ++ pod.name.data ++ ['"'])
    :: ("      image: \"".data ++ pod.image.data ++ ['"'])
    :: (portsCharLines pod.servicePorts ++ varsCharLines pod.vars
        ++ secretsCharLines pod.secrets)

/-- All lines of the rendered manifest, as character lists. -/
def appCharLines (y : NexlayerYaml) : List (List Char) :=
  "application:".data
    :: ("  name: \"".data ++ y.application.name.data ++ ['"'])
    :: "  pods:".data
    :: (y.application.pods.map podCharLines).flatten

/-- Join lines back into one character list, terminating each line with a
newline — the line structure of `yamlToString`'s output. -/
def joinLines (L : List (List Char)) : List Char :=
  L.foldr (fun l acc => l ++ '\n' :: acc) []

/-- The first line of a pod block, for a given name content. -/
def podNameL (x : List Char) : List Char :=
  "    - name: \"".data ++ x ++ ['"']

/-- Line lists that can follow the `servicePorts` section inside a pod
block: nothing, a `vars:` header, a `secrets:` header, or the first line
of the next pod. -/
def HeadAfterPorts (t : List (List Char)) : Prop :=
  t = [] ∨ ∃ hd tl, t = hd :: tl ∧
    (hd = "      vars:".data ∨ hd = "      secrets:".data ∨ ∃ x, hd = podNameL x)

/-- Line lists that can follow the `vars` section inside a pod block. -/
def HeadAfterVars (t : List (List Char)) : Prop :=
  t = [] ∨ ∃ hd tl, t = hd :: tl ∧
    (hd = "      secrets:".data ∨ ∃ x, hd = podNameL x)

/-- Line lists that can follow the `secrets` section inside a pod block. -/
def HeadAfterSecrets (t : List (List Char)) : Prop :=
  t = [] ∨ ∃ hd tl, t = hd :: tl ∧ ∃ x, hd = podNameL x

/-! ## Validity and cleanliness predicates -/

/-- A var entry whose rendered line parses back unambiguously: no newline
in key or value, and no colon in the key (the parser splits the line at
its first colon). -/
def VarClean (kv : String × String) : Prop :=
  '\n' ∉ kv.1.data ∧ ':' ∉ kv.1.data ∧ '\n' ∉ kv.2.data

/-- A secret whose rendered lines keep their line structure. -/
def SecretClean (sc : SecretConfig) : Prop :=
  '\n' ∉ sc.name.data ∧ '\n' ∉ sc.data.data
    ∧ '\n' ∉ sc.mountPath.data ∧ '\n' ∉ sc.fileName.data

/-- A pod whose rendered block keeps its line structure and whose optional
collections are absent rather than present-but-empty (rendering erases
the difference between `none` and `some []`, so only such pods can
round-trip). -/
def PodClean (pod : PodConfig) : Prop :=
  '\n' ∉ pod.name.data ∧ '\n' ∉ pod.image.data
    ∧ (∀ kv ∈ pod.vars.getD [], VarClean kv)
    ∧ (∀ sc ∈ pod.secrets.getD [], SecretClean sc)
    ∧ pod.servicePorts ≠ some [] ∧ pod.vars ≠ some [] ∧ pod.secrets ≠ some []

/-- An application whose rendered text determines its structure. -/
def AppClean (y : NexlayerYaml) : Prop :=
  '\n' ∉ y.application.name.data ∧ ∀ pod ∈ y.application.pods, PodClean pod

/-- Modelled from the spec: the repository has no `build` constructor, so
the spec's §4.1 validity conditions for `build(applicationName, podSpecs)`
are stated here as a predicate: non-empty application name, at least one
pod, unique non-empty pod names, non-empty images, ports in `[1, 65535]`,
non-empty unique var names per pod, and secrets with a `mountPath` and a
`fileName`. -/
def SpecValid (y : NexlayerYaml) : Prop :=
  y.application.name ≠ ""
    ∧ y.application.pods ≠ []
    ∧ (y.application.pods.map PodConfig.name).Nodup
    ∧ ∀ pod ∈ y.application.pods,
        pod.name ≠ ""
          ∧ pod.image ≠ ""
          ∧ (∀ p ∈ pod.servicePorts.getD [], 1 ≤ p ∧ p ≤ 65535)
          ∧ ((pod.vars.getD []).map Prod.fst).Nodup
          ∧ (∀ kv ∈ pod.vars.getD [], kv.1 ≠ "")
          ∧ (∀ sc ∈ pod.secrets.getD [], sc.mountPath ≠ "" ∧ sc.fileName ≠ "")

instance (kv : String × String) : Decidable (VarClean kv) := by
  unfold VarClean; infer_instance

instance (sc : SecretConfig) : Decidable (SecretClean sc) := by
  unfold SecretClean; infer_instance

instance (pod : PodConfig) : Decidable (PodClean pod) := by
  unfold PodClean; infer_instance

instance (y : NexlayerYaml) : Decidable (AppClean y) := by
  unfold AppClean; infer_instance

instance (y : NexlayerYaml) : Decidable (SpecValid y) := by
  unfold SpecValid; infer_instance

/-! ## Bridge lemmas: accumulator loops equal block concatenation -/

theorem foldl_append_of_pointwise {α : Type} (g : String → α → String) (f : α → String)
    (h : ∀ acc x, g acc x = acc ++ f x) :
    ∀ (l : List α) (init : String), l.foldl g init = init ++ joinStrings (l.map f) := by
  intro l
  induction l with
  | nil => intro init; simp [joinStrings]
  | cons x xs ih =>
    intro init
    simp only [List.foldl, List.map, joinStrings, h]
    rw [ih, String.append_assoc]

theorem podBlock_body_eq (acc : String) (pod : PodConfig) :
    (let s := acc ++ "    - name: \"" ++ pod.name ++ "\"\n"
     let s := s ++ "      image: \"" ++ pod.image ++ "\"\n"
     let s :=
       match pod.servicePorts with
       | some ports =>
         if ports.length > 0 then
           ports.foldl (fun s port => s ++ "        - " ++ natToString port ++ "\n")
             (s ++ "      servicePorts:\n")
         else s
       | none => s
     let s :=
       match pod.vars with
       | some vs =>
         if vs.length > 0 then
           vs.foldl (fun s kv => s ++ "        " ++ kv.1 ++ ": \"" ++ kv.2 ++ "\"\n")
             (s ++ "      vars:\n")
         else s
       | none => s
     match pod.secrets with
     | some secrets =>
       if secrets.length > 0 then
         secrets.foldl (fun s secret =>
           s ++ "        - name: \"" ++ secret.name ++ "\"\n"
             ++ "          data: \"" ++ secret.data ++ "\"\n"
             ++ "          mountPath: \"" ++ secret.mountPath ++ "\"\n"
             ++ "          fileName: \"" ++ secret.fileName ++ "\"\n")
           (s ++ "      secrets:\n")
       else s
     | none => s) = acc ++ podBlock pod := by
  have hports : ∀ (o : Option (List Nat)) (s : String),
      (match o with
       | some ports =>
         if ports.length > 0 then
           ports.foldl (fun s port => s ++ "        - " ++ natToString port ++ "\n")
             (s ++ "      servicePorts:\n")
         else s
       | none => s) = s ++ portsSection o := by
    intro o s
    cases o with
    | none => simp [portsSection]
    | some ports =>
      by_cases hl : ports.length > 0
      · simp only [portsSection, hl, if_pos]
        rw [foldl_append_of_pointwise _
          (fun port => "        - " ++ natToString port ++ "\n")
          (by intro a x; simp [String.append_assoc])]
        rw [String.append_assoc]
      · simp [portsSection, hl]
  have hvars : ∀ (o : Option (List (String × String))) (s : String),
      (match o with
       | some vs =>
         if vs.length > 0 then
           vs.foldl (fun s kv => s ++ "        " ++ kv.1 ++ ": \"" ++ kv.2 ++ "\"\n")
             (s ++ "      vars:\n")
         else s
       | none => s) = s ++ varsSection o := by
    intro o s
    cases o with
    | none => simp [varsSection]
    | some vs =>
      by_cases hl : vs.length > 0
      · simp only [varsSection, hl, if_pos]
        rw [foldl_append_of_pointwise _
          (fun kv => "        " ++ kv.1 ++ ": \"" ++ kv.2 ++ "\"\n")
          (by intro a x; simp [String.append_assoc])]
        rw [String.append_assoc]
      · simp [varsSection, hl]
  have hsecrets : ∀ (o : Option (List SecretConfig)) (s : String),
      (match o with
       | some secrets =>
         if secrets.length > 0 then
           secrets.foldl (fun s secret =>
             s ++ "        - name: \"" ++ secret.name ++ "\"\n"
               ++ "          data: \"" ++ secret.data ++ "\"\n"
               ++ "          mountPath: \"" ++ secret.mountPath ++ "\"\n"
               ++ "          fileName: \"" ++ secret.fileName ++ "\"\n")
             (s ++ "      secrets:\n")
         else s
       | none => s) = s ++ secretsSection o := by
    intro o s
    cases o with
    | none => simp [secretsSection]
    | some secrets =>
      by_cases hl : secrets.length > 0
      · simp only [secretsSection, hl, if_pos]
        rw [foldl_append_of_pointwise _ secretBlock
          (by intro a x; simp [secretBlock, String.append_assoc])]
        rw [String.append_assoc]
      · simp [secretsSection, hl]
  simp only [hports, hvars, hsecrets, podBlock]
  simp [String.append_assoc]

/-- `yamlToString` equals the canonical block decomposition. -/
theorem yamlToString_eq (y : NexlayerYaml) :
    NexlayerApiClient.yamlToString y =
      "application:\n  name: \"" ++ y.application.name ++ "\"\n  pods:\n"
        ++ podsBlocks y.application.pods := by
  unfold NexlayerApiClient.yamlToString
  rw [foldl_append_of_pointwise _ podBlock (fun acc pod => podBlock_body_eq acc pod)]
  rw [podsBlocks]
  simp [String.append_assoc]

/-- `generateYaml` equals the canonical block decomposition. -/
theorem generateYaml_eq (applicationName : String) (pods : List PodConfig) :
    NexlayerApiClient.generateYaml applicationName pods =
      "application:\n  name: \"" ++ applicationName ++ "\"\n  pods:\n"
        ++ podsBlocks pods := by
  unfold NexlayerApiClient.generateYaml
  exact yamlToString_eq _

theorem fgPodBlock_body_eq (acc : String) (pod : PodConfig) :
    (let s := acc ++ "\n  - name: " ++ pod.name
     let s := s ++ "\n    image: " ++ pod.image
     let s :=
       match pod.servicePorts with
       | some ports =>
         if ports.length > 0 then
           ports.foldl (fun s port => s ++ "\n      - " ++ natToString port)
             (s ++ "\n    servicePorts:")
         else s
       | none => s
     match pod.vars with
     | some vs =>
       if vs.length > 0 then
         vs.foldl (fun s kv => s ++ "\n      " ++ kv.1 ++ ": " ++ kv.2)
           (s ++ "\n    vars:")
       else s
     | none => s) = acc ++ fgPodBlock pod := by
  have hports : ∀ (o : Option (List Nat)) (s : String),
      (match o with
       | some ports =>
         if ports.length > 0 then
           ports.foldl (fun s port => s ++ "\n      - " ++ natToString port)
             (s ++ "\n    servicePorts:")
         else s
       | none => s) = s ++ fgPortsSection o := by
    intro o s
    cases o with
    | none => simp [fgPortsSection]
    | some ports =>
      by_cases hl : ports.length > 0
      · simp only [fgPortsSection, hl, if_pos]
        rw [foldl_append_of_pointwise _
          (fun port => "\n      - " ++ natToString port)
          (by intro a x; simp [String.append_assoc])]
        rw [String.append_assoc]
      · simp [fgPortsSection, hl]
  have hvars : ∀ (o : Option (List (String × String))) (s : String),
      (match o with
       | some vs =>
         if vs.length > 0 then
           vs.foldl (fun s kv => s ++ "\n      " ++ kv.1 ++ ": " ++ kv.2)
             (s ++ "\n    vars:")
         else s
       | none => s) = s ++ fgVarsSection o := by
    intro o s
    cases o with
    | none => simp [fgVarsSection]
    | some vs =>
      by_cases hl : vs.length > 0
      · simp only [fgVarsSection, hl, if_pos]
        rw [foldl_append_of_pointwise _
          (fun kv => "\n      " ++ kv.1 ++ ": " ++ kv.2)
          (by intro a x; simp [String.append_assoc])]
        rw [String.append_assoc]
      · simp [fgVarsSection, hl]
  simp only [hports, hvars, fgPodBlock]
  simp [String.append_assoc]

/-- `FileGenerator.generateNexlayerYaml` equals its canonical block
decomposition. -/
theorem generateNexlayerYaml_eq (applicationName : String) (pods : List PodConfig) :
    FileGenerator.generateNexlayerYaml applicationName pods =
      "application:\n  name: " ++ applicationName ++ "\n  description: "
        ++ applicationName ++ " application\n\npods:" ++ fgPodsBlocks pods := by
  unfold FileGenerator.generateNexlayerYaml
  rw [foldl_append_of_pointwise _ fgPodBlock (fun acc pod => fgPodBlock_body_eq acc pod)]
  rw [fgPodsBlocks]

theorem portsSection_cons (p : Nat) (ports : List Nat) :
    portsSection (some (p :: ports)) =
      "      servicePorts:\n"
        ++ joinStrings ((p :: ports).map (fun port => "        - " ++ natToString port ++ "\n")) := by
  simp [portsSection]

theorem varsSection_cons (kv : String × String) (vs : List (String × String)) :
    varsSection (some (kv :: vs)) =
      "      vars:\n"
        ++ joinStrings ((kv :: vs).map (fun kv => "        " ++ kv.1 ++ ": \"" ++ kv.2 ++ "\"\n")) := by
  simp [varsSection]

theorem secretsSection_cons (sc : SecretConfig) (secrets : List SecretConfig) :
    secretsSection (some (sc :: secrets)) =
      "      secrets:\n" ++ joinStrings ((sc :: secrets).map secretBlock) := by
  simp [secretsSection]

theorem portsSection_empty {o : Option (List Nat)} (h : o = none ∨ o = some []) :
    portsSection o = "" := by
  rcases h with h | h <;> subst h <;> simp [portsSection]

theorem varsSection_empty {o : Option (List (String × String))} (h : o = none ∨ o = some []) :
    varsSection o = "" := by
  rcases h with h | h <;> subst h <;> simp [varsSection]

theorem secretsSection_empty {o : Option (List SecretConfig)} (h : o = none ∨ o = some []) :
    secretsSection o = "" := by
  rcases h with h | h <;> subst h <;> simp [secretsSection]

theorem fgPortsSection_empty {o : Option (List Nat)} (h : o = none ∨ o = some []) :
    fgPortsSection o = "" := by
  rcases h with h | h <;> subst h <;> simp [fgPortsSection]

theorem fgVarsSection_empty {o : Option (List (String × String))} (h : o = none ∨ o = some []) :
    fgVarsSection o = "" := by
  rcases h with h | h <;> subst h <;> simp [fgVarsSection]

/-! ## Decimal printing and reading invert each other -/

theorem charDigit?_digitChar (d : Nat) (h : d < 10) : charDigit? (digitChar d) = some d := by
  interval_cases d <;> rfl

theorem digitChar_ne_newline (d : Nat) : digitChar d ≠ '\n' := by
  unfold digitChar
  split <;> decide

theorem newline_not_mem_natToCharsAux (fuel : Nat) :
    ∀ n, '\n' ∉ natToCharsAux fuel n := by
  induction fuel with
  | zero => intro n; simp [natToCharsAux]
  | succ f ih =>
    intro n
    by_cases h : n < 10
    · simp only [natToCharsAux, if_pos h, List.mem_singleton]
      exact fun e => digitChar_ne_newline n e.symm
    · simp only [natToCharsAux, if_neg h, List.mem_append, List.mem_singleton]
      rintro (hm | hm)
      · exact ih _ hm
      · exact digitChar_ne_newline _ hm.symm

theorem newline_not_mem_natToChars (n : Nat) : '\n' ∉ natToChars n :=
  newline_not_mem_natToCharsAux (n + 1) n

theorem readNatAux_append (l1 l2 : List Char) :
    ∀ acc, readNatAux acc (l1 ++ l2) =
      (readNatAux acc l1).bind (fun a => readNatAux a l2) := by
  induction l1 with
  | nil => intro acc; simp [readNatAux]
  | cons c cs ih =>
    intro acc
    simp only [List.cons_append, readNatAux]
    cases charDigit? c with
    | none => simp
    | some d => simp [ih]

theorem natToCharsAux_ne_nil (fuel n : Nat) (h : 0 < fuel) : natToCharsAux fuel n ≠ [] := by
  cases fuel with
  | zero => omega
  | succ f =>
    by_cases h10 : n < 10
    · simp [natToCharsAux, if_pos h10]
    · simp [natToCharsAux, if_neg h10]

theorem readNatAux_natToCharsAux (fuel : Nat) :
    ∀ n acc, n < fuel →
      readNatAux acc (natToCharsAux fuel n) =
        some (acc * 10 ^ (natToCharsAux fuel n).length + n) := by
  induction fuel with
  | zero => intro n acc h; omega
  | succ f ih =>
    intro n acc h
    by_cases h10 : n < 10
    · simp only [natToCharsAux, if_pos h10, readNatAux, charDigit?_digitChar n h10,
        List.length_singleton, pow_one]
    · have hn : 0 < n := by omega
      have hdiv : n / 10 < n := Nat.div_lt_self hn (by omega)
      have hf : n / 10 < f := by omega
      simp only [natToCharsAux, if_neg h10]
      rw [readNatAux_append, ih (n / 10) acc hf]
      have hd : n % 10 < 10 := Nat.mod_lt n (by omega)
      simp only [Option.some_bind, readNatAux, charDigit?_digitChar (n % 10) hd,
        List.length_append, List.length_singleton]
      congr 1
      have hdm : 10 * (n / 10) + n % 10 = n := Nat.div_add_mod n 10
      set L := (natToCharsAux f (n / 10)).length with hL
      calc (acc * 10 ^ L + n / 10) * 10 + n % 10
          = acc * 10 ^ (L + 1) + (10 * (n / 10) + n % 10) := by ring
        _ = acc * 10 ^ (L + 1) + n := by rw [hdm]

theorem readNat_natToChars (n : Nat) : readNat (natToChars n) = some n := by
  obtain ⟨c, cs, hcons⟩ := List.exists_cons_of_ne_nil
    (natToCharsAux_ne_nil (n + 1) n (Nat.succ_pos n))
  have h1 : readNat (natToChars n) = readNatAux 0 (natToChars n) := by
    rw [natToChars, hcons]; rfl
  rw [h1, natToChars, readNatAux_natToCharsAux (n + 1) n 0 (Nat.lt_succ_self n)]
  simp

theorem natToChars_injective : Function.Injective natToChars := by
  intro a b h
  have ha := readNat_natToChars a
  rw [h, readNat_natToChars b] at ha
  exact ((Option.some.injEq _ _).mp ha).symm

theorem natToString_injective : Function.Injective natToString := by
  intro a b h
  exact natToChars_injective (congrArg String.data h)

/-! ## Line splitting and joining invert each other -/

theorem splitLines_line_append (line : List Char) (rest : List Char) (h : '\n' ∉ line) :
    splitLines (line ++ '\n' :: rest) = line :: splitLines rest := by
  induction line with
  | nil => simp [splitLines]
  | cons c cs ih =>
    simp only [List.mem_cons, not_or] at h
    obtain ⟨hc, hcs⟩ := h
    have hc' : ¬(c = '\n') := fun e => hc (Eq.symm e)
    simp only [List.cons_append, splitLines, if_neg hc', List.append_eq, ih hcs]

theorem joinLines_append (L1 L2 : List (List Char)) :
    joinLines (L1 ++ L2) = joinLines L1 ++ joinLines L2 := by
  induction L1 with
  | nil => simp [joinLines]
  | cons l ls ih => simp [joinLines, List.foldr] at ih ⊢; simp [ih, List.append_assoc]

theorem splitLines_joinLines (L : List (List Char)) (h : ∀ l ∈ L, '\n' ∉ l) :
    splitLines (joinLines L) = L := by
  induction L with
  | nil => rfl
  | cons l ls ih =>
    have hl : '\n' ∉ l := h l (List.mem_cons_self l ls)
    have hls : ∀ x ∈ ls, '\n' ∉ x := fun x hx => h x (List.mem_cons_of_mem l hx)
    show splitLines (l ++ '\n' :: joinLines ls) = l :: ls
    rw [splitLines_line_append l _ hl, ih hls]

/-! ## Parser primitives invert the rendered forms -/

theorem dropPre_append (p r : List Char) : dropPre p (p ++ r) = some r := by
  induction p with
  | nil => rfl
  | cons c cs ih => simp [dropPre, ih]

theorem stripQuoted_append (pre content : List Char) :
    stripQuoted pre (pre ++ content ++ ['"']) = some content := by
  unfold stripQuoted
  rw [List.append_assoc, dropPre_append]
  simp [List.getLast?_concat, List.dropLast_concat]

theorem splitAtColon_append (k r : List Char) (h : ':' ∉ k) :
    splitAtColon (k ++ ':' :: r) = some (k, r) := by
  induction k with
  | nil => simp [splitAtColon]
  | cons c cs ih =>
    simp only [List.mem_cons, not_or] at h
    obtain ⟨hc, hcs⟩ := h
    have hc' : ¬(c = ':') := fun e => hc (Eq.symm e)
    simp only [List.cons_append, splitAtColon, if_neg hc', List.append_eq, ih hcs]

/-! ## Character-level data of the rendered text -/

theorem joinLines_nil : joinLines [] = [] := rfl

theorem joinLines_cons (l : List Char) (L : List (List Char)) :
    joinLines (l :: L) = l ++ '\n' :: joinLines L := rfl

theorem natToString_data (n : Nat) : (natToString n).data = natToChars n := rfl

theorem data_nl : ("\n" : String).data = ['\n'] := rfl

theorem data_qnl : ("\"\n" : String).data = ['"', '\n'] := rfl

theorem data_colon_quote : (": \"" : String).data = [':', ' ', '"'] := rfl

theorem data_portsHeader : ("      servicePorts:\n" : String).data =
    "      servicePorts:".data ++ ['\n'] := by decide

theorem data_varsHeader : ("      vars:\n" : String).data =
    "      vars:".data ++ ['\n'] := by decide

theorem data_secretsHeader : ("      secrets:\n" : String).data =
    "      secrets:".data ++ ['\n'] := by decide

theorem data_appHeader : ("application:\n  name: \"" : String).data =
    "application:".data ++ '\n' :: "  name: \"".data := by decide

theorem data_podsHeader : ("\"\n  pods:\n" : String).data =
    ['"'] ++ '\n' :: ("  pods:".data ++ ['\n']) := by decide

theorem portItems_data (ports : List Nat) :
    (joinStrings (ports.map (fun port => "        - " ++ natToString port ++ "\n"))).data =
      joinLines (ports.map (fun port => "        - ".data ++ natToChars port)) := by
  induction ports with
  | nil => rfl
  | cons p ps ih =>
    simp only [List.map_cons, joinStrings, joinLines_cons, String.data_append, ih,
      natToString_data, data_nl, List.append_assoc, List.cons_append, List.nil_append]

theorem portsSection_data (o : Option (List Nat)) :
    (portsSection o).data = joinLines (portsCharLines o) := by
  cases o with
  | none => rfl
  | some ports =>
    cases ports with
    | nil => rfl
    | cons p ps =>
      rw [portsSection, if_pos (by simp), portsCharLines, if_pos (by simp)]
      simp only [String.data_append, data_portsHeader, portItems_data, joinLines_cons,
        List.append_assoc, List.cons_append, List.nil_append]

theorem varItems_data (vs : List (String × String)) :
    (joinStrings (vs.map (fun kv => "        " ++ kv.1 ++ ": \"" ++ kv.2 ++ "\"\n"))).data =
      joinLines (vs.map (fun kv =>
        "        ".data ++ kv.1.data ++ ':' :: ' ' :: '"' :: (kv.2.data ++ ['"']))) := by
  induction vs with
  | nil => rfl
  | cons kv kvs ih =>
    simp only [List.map_cons, joinStrings, joinLines_cons, String.data_append, ih,
      data_colon_quote, data_qnl, List.append_assoc, List.cons_append, List.nil_append]

theorem varsSection_data (o : Option (List (String × String))) :
    (varsSection o).data = joinLines (varsCharLines o) := by
  cases o with
  | none => rfl
  | some vs =>
    cases vs with
    | nil => rfl
    | cons kv kvs =>
      rw [varsSection, if_pos (by simp), varsCharLines, if_pos (by simp)]
      simp only [String.data_append, data_varsHeader, varItems_data, joinLines_cons,
        List.append_assoc, List.cons_append, List.nil_append]

theorem secretBlock_data (sc : SecretConfig) :
    (secretBlock sc).data = joinLines (secretCharLines sc) := by
  simp only [secretBlock, secretCharLines, joinLines_cons, joinLines_nil,
    String.data_append, data_qnl, List.append_assoc, List.cons_append, List.nil_append,
    List.append_nil]

theorem secretItems_data (ss : List SecretConfig) :
    (joinStrings (ss.map secretBlock)).data =
      joinLines ((ss.map secretCharLines).flatten) := by
  induction ss with
  | nil => rfl
  | cons sc scs ih =>
    simp only [List.map_cons, joinStrings, List.flatten_cons, String.data_append, ih,
      joinLines_append, secretBlock_data]

theorem secretsSection_data (o : Option (List SecretConfig)) :
    (secretsSection o).data = joinLines (secretsCharLines o) := by
  cases o with
  | none => rfl
  | some ss =>
    cases ss with
    | nil => rfl
    | cons sc scs =>
      rw [secretsSection, if_pos (by simp), secretsCharLines, if_pos (by simp)]
      simp only [String.data_append, data_secretsHeader, secretItems_data, joinLines_cons,
        List.append_assoc, List.cons_append, List.nil_append]

theorem podBlock_data (pod : PodConfig) :
    (podBlock pod).data = joinLines (podCharLines pod) := by
  simp only [podBlock, podCharLines, joinLines_cons, joinLines_append, String.data_append,
    portsSection_data, varsSection_data, secretsSection_data, data_qnl,
    List.append_assoc, List.cons_append, List.nil_append]

theorem podsBlocks_data (pods : List PodConfig) :
    (podsBlocks pods).data = joinLines ((pods.map podCharLines).flatten) := by
  induction pods with
  | nil => rfl
  | cons pod pods ih =>
    simp only [podsBlocks, List.map_cons, joinStrings, List.flatten_cons, String.data_append,
      joinLines_append, podBlock_data]
    rw [podsBlocks] at ih
    rw [ih]

theorem yamlToString_data (y : NexlayerYaml) :
    (NexlayerApiClient.yamlToString y).data = joinLines (appCharLines y) := by
  rw [yamlToString_eq]
  simp only [String.data_append, data_appHeader, data_podsHeader, podsBlocks_data,
    appCharLines, joinLines_cons, List.append_assoc, List.cons_append, List.nil_append]

/-! ## Rendered lines contain no newline -/

theorem no_nl_quoted {pre s : List Char} (hpre : '\n' ∉ pre) (hs : '\n' ∉ s) :
    '\n' ∉ pre ++ s ++ ['"'] := by
  simp only [List.mem_append, List.mem_singleton]
  rintro ((h | h) | h)
  · exact hpre h
  · exact hs h
  · exact absurd h (by decide)

theorem no_nl_varLine {k v : List Char} (hk : '\n' ∉ k) (hv : '\n' ∉ v) :
    '\n' ∉ "        ".data ++ k ++ ':' :: ' ' :: '"' :: (v ++ ['"']) := by
  intro hmem
  rcases List.mem_append.mp hmem with h | h
  · rcases List.mem_append.mp h with h | h
    · exact absurd h (by decide)
    · exact hk h
  · rcases List.mem_cons.mp h with h | h
    · exact absurd h (by decide)
    · rcases List.mem_cons.mp h with h | h
      · exact absurd h (by decide)
      · rcases List.mem_cons.mp h with h | h
        · exact absurd h (by decide)
        · rcases List.mem_append.mp h with h | h
          · exact hv h
          · exact absurd h (by decide)

theorem no_nl_podCharLines (pod : PodConfig) (hp : PodClean pod) :
    ∀ l ∈ podCharLines pod, '\n' ∉ l := by
  obtain ⟨hn, hi, hv, hs, _, _, _⟩ := hp
  intro l hl
  simp only [podCharLines, List.mem_cons, List.mem_append] at hl
  rcases hl with rfl | rfl | (hl | hl) | hl
  · exact no_nl_quoted (by decide) hn
  · exact no_nl_quoted (by decide) hi
  · cases hsp : pod.servicePorts with
    | none => rw [hsp] at hl; simp [portsCharLines] at hl
    | some ports =>
      rw [hsp] at hl
      cases ports with
      | nil => simp [portsCharLines] at hl
      | cons p ps =>
        rw [portsCharLines, if_pos (by simp)] at hl
        rcases List.mem_cons.mp hl with rfl | hl
        · decide
        · obtain ⟨q, _, rfl⟩ := List.mem_map.mp hl
          simp only [List.mem_append]
          rintro (h | h)
          · exact absurd h (by decide)
          · exact newline_not_mem_natToChars q h
  · cases hvv : pod.vars with
    | none => rw [hvv] at hl; simp [varsCharLines] at hl
    | some vs =>
      rw [hvv] at hl
      cases vs with
      | nil => simp [varsCharLines] at hl
      | cons kv kvs =>
        rw [varsCharLines, if_pos (by simp)] at hl
        rcases List.mem_cons.mp hl with rfl | hl
        · decide
        · obtain ⟨kv', hkv', rfl⟩ := List.mem_map.mp hl
          have hcl : VarClean kv' := by
            have := hv kv'
            rw [hvv] at this
            exact this hkv'
          obtain ⟨h1, _, h3⟩ := hcl
          exact no_nl_varLine h1 h3
  · cases hss : pod.secrets with
    | none => rw [hss] at hl; simp [secretsCharLines] at hl
    | some ss =>
      rw [hss] at hl
      cases ss with
      | nil => simp [secretsCharLines] at hl
      | cons sc scs =>
        rw [secretsCharLines, if_pos (by simp)] at hl
        rcases List.mem_cons.mp hl with rfl | hl
        · decide
        · obtain ⟨lines, hlines, hlmem⟩ := List.mem_flatten.mp hl
          obtain ⟨sc', hsc', rfl⟩ := List.mem_map.mp hlines
          have hcl : SecretClean sc' := by
            have := hs sc'
            rw [hss] at this
            exact this hsc'
          obtain ⟨h1, h2, h3, h4⟩ := hcl
          simp only [secretCharLines, List.mem_cons, List.mem_singleton] at hlmem
          rcases hlmem with rfl | rfl | rfl | rfl | hfalse
          · exact no_nl_quoted (by decide) h1
          · exact no_nl_quoted (by decide) h2
          · exact no_nl_quoted (by decide) h3
          · exact no_nl_quoted (by decide) h4
          · exact absurd hfalse (by simp)

theorem no_nl_appCharLines (y : NexlayerYaml) (hy : AppClean y) :
    ∀ l ∈ appCharLines y, '\n' ∉ l := by
  obtain ⟨hname, hpods⟩ := hy
  intro l hl
  simp only [appCharLines, List.mem_cons] at hl
  rcases hl with rfl | rfl | rfl | hl
  · decide
  · exact no_nl_quoted (by decide) hname
  · decide
  · obtain ⟨lines, hlines, hlmem⟩ := List.mem_flatten.mp hl
    obtain ⟨pod, hpod, rfl⟩ := List.mem_map.mp hlines
    exact no_nl_podCharLines pod (hpods pod hpod) l hlmem

/-! ## Parse-side stepping lemmas -/

theorem dropPre_spaceQuote (x : List Char) : dropPre " \"".data (' ' :: '"' :: x) = some x := rfl

theorem dropPre_spaceQuote' (x : List Char) : dropPre [' ', '"'] (' ' :: '"' :: x) = some x := rfl

theorem string_mk_data (s : String) : (⟨s.data⟩ : String) = s := rfl

theorem podNameL_ne_portsH (x : List Char) : podNameL x ≠ "      servicePorts:".data := by
  intro h
  have h4 : (some '-' : Option Char) = some ' ' := congrArg (fun l => List.get? l 4) h
  exact absurd h4 (by decide)

theorem podNameL_ne_varsH (x : List Char) : podNameL x ≠ "      vars:".data := by
  intro h
  have h4 : (some '-' : Option Char) = some ' ' := congrArg (fun l => List.get? l 4) h
  exact absurd h4 (by decide)

theorem podNameL_ne_secretsH (x : List Char) : podNameL x ≠ "      secrets:".data := by
  intro h
  have h4 : (some '-' : Option Char) = some ' ' := congrArg (fun l => List.get? l 4) h
  exact absurd h4 (by decide)

theorem headAfterPorts_miss {t : List (List Char)} (h : HeadAfterPorts t) :
    t = [] ∨ ∃ hd tl, t = hd :: tl ∧ hd ≠ "      servicePorts:".data := by
  rcases h with rfl | ⟨hd, tl, rfl, hh⟩
  · exact Or.inl rfl
  · refine Or.inr ⟨hd, tl, rfl, ?_⟩
    rcases hh with rfl | rfl | ⟨x, rfl⟩
    · decide
    · decide
    · exact podNameL_ne_portsH x

theorem headAfterVars_miss {t : List (List Char)} (h : HeadAfterVars t) :
    t = [] ∨ ∃ hd tl, t = hd :: tl ∧ hd ≠ "      vars:".data := by
  rcases h with rfl | ⟨hd, tl, rfl, hh⟩
  · exact Or.inl rfl
  · refine Or.inr ⟨hd, tl, rfl, ?_⟩
    rcases hh with rfl | ⟨x, rfl⟩
    · decide
    · exact podNameL_ne_varsH x

theorem headAfterSecrets_miss {t : List (List Char)} (h : HeadAfterSecrets t) :
    t = [] ∨ ∃ hd tl, t = hd :: tl ∧ hd ≠ "      secrets:".data := by
  rcases h with rfl | ⟨hd, tl, rfl, x, rfl⟩
  · exact Or.inl rfl
  · exact Or.inr ⟨_, tl, rfl, podNameL_ne_secretsH x⟩

theorem headAfterPorts_of_headAfterVars {t : List (List Char)} (h : HeadAfterVars t) :
    HeadAfterPorts t := by
  rcases h with rfl | ⟨hd, tl, rfl, hh⟩
  · exact Or.inl rfl
  · exact Or.inr ⟨hd, tl, rfl, Or.inr hh⟩

theorem headAfterVars_of_headAfterSecrets {t : List (List Char)} (h : HeadAfterSecrets t) :
    HeadAfterVars t := by
  rcases h with rfl | ⟨hd, tl, rfl, hx⟩
  · exact Or.inl rfl
  · exact Or.inr ⟨hd, tl, rfl, Or.inr hx⟩

theorem sectionStep_miss {α : Type} (header : List Char)
    (items : List (List Char) → Option (α × List (List Char)))
    (ls : List (List Char))
    (h : ls = [] ∨ ∃ hd tl, ls = hd :: tl ∧ hd ≠ header) :
    sectionStep header items ls = some (none, ls) := by
  rcases h with rfl | ⟨hd, tl, rfl, hne⟩
  · rfl
  · simp [sectionStep, if_neg hne]

theorem sectionStep_hit {α : Type} (header : List Char)
    (items : List (List Char) → Option (α × List (List Char)))
    (tl : List (List Char)) (x : α) (rest : List (List Char))
    (h : items tl = some (x, rest)) :
    sectionStep header items (header :: tl) = some (some x, rest) := by
  simp [sectionStep, h]

theorem parsePortItems_append (ports : List Nat) (tail : List (List Char))
    (ht : HeadAfterPorts tail) :
    parsePortItems (ports.map (fun port => "        - ".data ++ natToChars port) ++ tail) =
      some (ports, tail) := by
  induction ports with
  | nil =>
    simp only [List.map_nil, List.nil_append]
    rcases ht with rfl | ⟨hd, tl, rfl, hh⟩
    · rfl
    · rcases hh with rfl | rfl | ⟨x, rfl⟩ <;> rfl
  | cons p ps ih =>
    show parsePortItems (("        - ".data ++ natToChars p)
        :: (List.map (fun port => "        - ".data ++ natToChars port) ps ++ tail)) =
      some (p :: ps, tail)
    simp only [parsePortItems, dropPre_append, readNat_natToChars, ih]

theorem parseVarItems_append (vs : List (String × String)) (tail : List (List Char))
    (ht : HeadAfterVars tail) (hcl : ∀ kv ∈ vs, ':' ∉ kv.1.data) :
    parseVarItems (vs.map (fun kv =>
        "        ".data ++ kv.1.data ++ ':' :: ' ' :: '"' :: (kv.2.data ++ ['"'])) ++ tail) =
      some (vs, tail) := by
  induction vs with
  | nil =>
    simp only [List.map_nil, List.nil_append]
    rcases ht with rfl | ⟨hd, tl, rfl, hh⟩
    · rfl
    · rcases hh with rfl | ⟨x, rfl⟩ <;> rfl
  | cons kv kvs ih =>
    have hk : ':' ∉ kv.1.data := hcl kv (List.mem_cons_self kv kvs)
    have hks : ∀ kv' ∈ kvs, ':' ∉ kv'.1.data := fun kv' h => hcl kv' (List.mem_cons_of_mem _ h)
    show parseVarItems (("        ".data ++ (kv.1.data ++ ':' :: ' ' :: '"' :: (kv.2.data ++ ['"'])))
        :: (List.map (fun kv =>
            "        ".data ++ kv.1.data ++ ':' :: ' ' :: '"' :: (kv.2.data ++ ['"'])) kvs ++ tail)) =
      some (kv :: kvs, tail)
    simp only [parseVarItems, parseVarLine, dropPre_append, splitAtColon_append _ _ hk,
      dropPre_spaceQuote, dropPre_spaceQuote', List.getLast?_concat, List.dropLast_concat,
      string_mk_data, Prod.mk.eta, ih hks]

theorem parseSecretItems_append (ss : List SecretConfig) (tail : List (List Char))
    (ht : HeadAfterSecrets tail) :
    parseSecretItems ((ss.map secretCharLines).flatten ++ tail) = some (ss, tail) := by
  induction ss with
  | nil =>
    simp only [List.map_nil, List.flatten_nil, List.nil_append]
    rcases ht with rfl | ⟨hd, tl, rfl, x, rfl⟩
    · rfl
    · rfl
  | cons sc scs ih =>
    show parseSecretItems (("        - name: \"".data ++ sc.name.data ++ ['"'])
        :: ("          data: \"".data ++ sc.data.data ++ ['"'])
        :: ("          mountPath: \"".data ++ sc.mountPath.data ++ ['"'])
        :: ("          fileName: \"".data ++ sc.fileName.data ++ ['"'])
        :: ((scs.map secretCharLines).flatten ++ tail)) =
      some (sc :: scs, tail)
    simp only [parseSecretItems, stripQuoted_append, ih]

/-! ## Section-level and pod-level inversion -/

theorem headAfterSecrets_flatten (pods : List PodConfig) :
    HeadAfterSecrets ((pods.map podCharLines).flatten) := by
  cases pods with
  | nil => exact Or.inl rfl
  | cons pod pods =>
    exact Or.inr ⟨_, _, rfl, pod.name.data, rfl⟩

theorem headAfterVars_parts (o : Option (List SecretConfig)) (rest : List (List Char))
    (ho : o ≠ some []) (hrest : HeadAfterSecrets rest) :
    HeadAfterVars (secretsCharLines o ++ rest) := by
  cases o with
  | none =>
    simp only [secretsCharLines, List.nil_append]
    exact headAfterVars_of_headAfterSecrets hrest
  | some ss =>
    cases ss with
    | nil => exact absurd rfl ho
    | cons sc scs =>
      rw [secretsCharLines, if_pos (by simp)]
      exact Or.inr ⟨_, _, List.cons_append _ _ _, Or.inl rfl⟩

theorem headAfterPorts_parts (vo : Option (List (String × String)))
    (so : Option (List SecretConfig)) (rest : List (List Char))
    (hvo : vo ≠ some []) (hso : so ≠ some []) (hrest : HeadAfterSecrets rest) :
    HeadAfterPorts (varsCharLines vo ++ (secretsCharLines so ++ rest)) := by
  cases vo with
  | none =>
    simp only [varsCharLines, List.nil_append]
    exact headAfterPorts_of_headAfterVars (headAfterVars_parts so rest hso hrest)
  | some vs =>
    cases vs with
    | nil => exact absurd rfl hvo
    | cons kv kvs =>
      rw [varsCharLines, if_pos (by simp)]
      exact Or.inr ⟨_, _, List.cons_append _ _ _, Or.inl rfl⟩

theorem portsStep_full (o : Option (List Nat)) (t : List (List Char))
    (ho : o ≠ some []) (ht : HeadAfterPorts t) :
    sectionStep "      servicePorts:".data parsePortItems (portsCharLines o ++ t) =
      some (o, t) := by
  cases o with
  | none =>
    simp only [portsCharLines, List.nil_append]
    exact sectionStep_miss _ _ _ (headAfterPorts_miss ht)
  | some ports =>
    cases ports with
    | nil => exact absurd rfl ho
    | cons p ps =>
      rw [portsCharLines, if_pos (by simp)]
      simp only [List.cons_append]
      exact sectionStep_hit _ _ _ _ _ (parsePortItems_append (p :: ps) t ht)

theorem varsStep_full (o : Option (List (String × String))) (t : List (List Char))
    (ho : o ≠ some []) (hcl : ∀ kv ∈ o.getD [], ':' ∉ kv.1.data) (ht : HeadAfterVars t) :
    sectionStep "      vars:".data parseVarItems (varsCharLines o ++ t) = some (o, t) := by
  cases o with
  | none =>
    simp only [varsCharLines, List.nil_append]
    exact sectionStep_miss _ _ _ (headAfterVars_miss ht)
  | some vs =>
    cases vs with
    | nil => exact absurd rfl ho
    | cons kv kvs =>
      rw [varsCharLines, if_pos (by simp)]
      simp only [List.cons_append]
      exact sectionStep_hit _ _ _ _ _ (parseVarItems_append (kv :: kvs) t ht hcl)

theorem secretsStep_full (o : Option (List SecretConfig)) (t : List (List Char))
    (ho : o ≠ some []) (ht : HeadAfterSecrets t) :
    sectionStep "      secrets:".data parseSecretItems (secretsCharLines o ++ t) =
      some (o, t) := by
  cases o with
  | none =>
    simp only [secretsCharLines, List.nil_append]
    exact sectionStep_miss _ _ _ (headAfterSecrets_miss ht)
  | some ss =>
    cases ss with
    | nil => exact absurd rfl ho
    | cons sc scs =>
      rw [secretsCharLines, if_pos (by simp)]
      simp only [List.cons_append]
      exact sectionStep_hit _ _ _ _ _ (parseSecretItems_append (sc :: scs) t ht)

theorem parsePodsAux_flatten (pods : List PodConfig) :
    ∀ fuel, pods.length < fuel →
      (∀ pod ∈ pods, PodClean pod) →
      parsePodsAux fuel ((pods.map podCharLines).flatten) = some pods := by
  induction pods with
  | nil =>
    intro fuel hf _
    cases fuel with
    | zero => omega
    | succ f => rfl
  | cons pod pods ih =>
    intro fuel hf hcl
    cases fuel with
    | zero => omega
    | succ f =>
      obtain ⟨_, _, hv, _, hp1, hp2, hp3⟩ := hcl pod (List.mem_cons_self pod pods)
      have hcl' : ∀ q ∈ pods, PodClean q := fun q hq => hcl q (List.mem_cons_of_mem _ hq)
      have hrest : HeadAfterSecrets ((pods.map podCharLines).flatten) :=
        headAfterSecrets_flatten pods
      have hva : HeadAfterVars (secretsCharLines pod.secrets
          ++ (pods.map podCharLines).flatten) :=
        headAfterVars_parts pod.secrets _ hp3 hrest
      have hpo : HeadAfterPorts (varsCharLines pod.vars ++ (secretsCharLines pod.secrets
          ++ (pods.map podCharLines).flatten)) :=
        headAfterPorts_parts pod.vars pod.secrets _ hp2 hp3 hrest
      have hvcl : ∀ kv ∈ pod.vars.getD [], ':' ∉ kv.1.data := fun kv hkv => (hv kv hkv).2.1
      have hf' : pods.length < f := by
        simp only [List.length_cons] at hf
        omega
      have hassoc : ((portsCharLines pod.servicePorts ++ varsCharLines pod.vars
            ++ secretsCharLines pod.secrets) ++ (pods.map podCharLines).flatten) =
          portsCharLines pod.servicePorts ++ (varsCharLines pod.vars
            ++ (secretsCharLines pod.secrets ++ (pods.map podCharLines).flatten)) := by
        simp [List.append_assoc]
      show parsePodsAux (f + 1)
          (("    - name: \"".data ++ pod.name.data ++ ['"'])
            :: ("      image: \"".data ++ pod.image.data ++ ['"'])
            :: ((portsCharLines pod.servicePorts
              ++ varsCharLines pod.vars
              ++ secretsCharLines pod.secrets) ++ (pods.map podCharLines).flatten)) =
        some (pod :: pods)
      rw [hassoc]
      simp only [parsePodsAux, stripQuoted_append,
        portsStep_full pod.servicePorts _ hp1 hpo,
        varsStep_full pod.vars _ hp2 hvcl hva,
        secretsStep_full pod.secrets _ hp3 hrest,
        ih f hf' hcl', string_mk_data]

theorem length_le_flatten_podCharLines (pods : List PodConfig) :
    pods.length ≤ ((pods.map podCharLines).flatten).length := by
  induction pods with
  | nil => simp
  | cons pod pods ih =>
    simp only [List.map_cons, List.flatten_cons, List.length_append, podCharLines,
      List.length_cons]
    omega

theorem parseManifest_yamlToString (y : NexlayerYaml) (hclean : AppClean y) :
    parseManifest (NexlayerApiClient.yamlToString y) = some y := by
  simp only [parseManifest, yamlToString_data,
    splitLines_joinLines _ (no_nl_appCharLines y hclean)]
  show (match "application:".data
      :: ("  name: \"".data ++ y.application.name.data ++ ['"'])
      :: "  pods:".data
      :: (y.application.pods.map podCharLines).flatten with
    | l1 :: l2 :: l3 :: rest =>
      if l1 = "application:".data then
        match stripQuoted "  name: \"".data l2 with
        | some nm =>
          if l3 = "  pods:".data then
            match parsePodsAux (rest.length + 1) rest with
            | some pods => some ⟨⟨⟨nm⟩, pods⟩⟩
            | none => none
          else none
        | none => none
      else none
    | _ => none) = some y
  have hfuel : y.application.pods.length < ((y.application.pods.map podCharLines).flatten).length + 1 := by
    have := length_le_flatten_podCharLines y.application.pods
    omega
  simp only [eq_self_iff_true, if_true, stripQuoted_append,
    parsePodsAux_flatten y.application.pods _ hfuel hclean.2, string_mk_data]

/-! ## Claims -/

/-- Claim C2, counterexample: the construction entry point
`NexlayerApiClient.generateYaml` does not fail on an empty application
name or an empty pod list — in both cases it returns a manifest string,
contradicting "fails with InvalidSpec; no manifest is produced". -/
theorem claim_C2_cex :
    NexlayerApiClient.generateYaml "" [{ name := "web", image := "nginx" }] =
      "application:\n  name: \"\"\n  pods:\n    - name: \"web\"\n      image: \"nginx\"\n"
    ∧ NexlayerApiClient.generateYaml "x" [] = "application:\n  name: \"x\"\n  pods:\n" :=
  ⟨by decide, by decide⟩

/-- Claim C2, amended: `generateYaml` performs no validation at all.  With
an empty application name it still produces a manifest (the name rendered
as an empty quoted string followed by the pod blocks), and with an empty
pod list it produces a manifest whose `pods:` section is empty. -/
theorem claim_C2 :
    (∀ (pods : List PodConfig),
      NexlayerApiClient.generateYaml "" pods =
        "application:\n  name: \"\"\n  pods:\n" ++ podsBlocks pods)
    ∧ (∀ (applicationName : String),
      NexlayerApiClient.generateYaml applicationName [] =
        "application:\n  name: \"" ++ applicationName ++ "\"\n  pods:\n") := by
  constructor
  · intro pods
    rw [generateYaml_eq]
    congr 1
  · intro applicationName
    rw [generateYaml_eq]
    simp [podsBlocks, joinStrings]

/-- Claim C3, counterexample: a `servicePorts` entry of `0` or `65536`
does not fail — `generateYaml` renders the out-of-range port verbatim and
returns a manifest. -/
theorem claim_C3_cex :
    NexlayerApiClient.generateYaml "x" [⟨"a", "img", some [0], none, none⟩] =
      "application:\n  name: \"x\"\n  pods:\n    - name: \"a\"\n      image: \"img\"\n      servicePorts:\n        - 0\n"
    ∧ NexlayerApiClient.generateYaml "x" [⟨"a", "img", some [65536], none, none⟩] =
      "application:\n  name: \"x\"\n  pods:\n    - name: \"a\"\n      image: \"img\"\n      servicePorts:\n        - 65536\n" :=
  ⟨by decide, by decide⟩

/-- Claim C3, amended: no port-range check exists anywhere in the
construction path.  Every port value — `0`, `1`, `65535`, `65536` alike —
is rendered verbatim as an unquoted decimal item, and a manifest is always
produced. -/
theorem claim_C3 (applicationName podName image : String) (p : Nat) :
    NexlayerApiClient.generateYaml applicationName
        [⟨podName, image, some [p], none, none⟩] =
      "application:\n  name: \"" ++ applicationName ++ "\"\n  pods:\n"
        ++ "    - name: \"" ++ podName ++ "\"\n"
        ++ "      image: \"" ++ image ++ "\"\n"
        ++ "      servicePorts:\n"
        ++ "        - " ++ natToString p ++ "\n" := by
  rw [generateYaml_eq]
  simp only [podsBlocks, List.map, joinStrings, podBlock, portsSection_cons,
    varsSection, secretsSection, String.append_assoc, String.append_empty]

/-- Claim C5: rendering is deterministic — `yamlToString` is a pure
function of the `NexlayerYaml` value, so equal inputs give byte-identical
output. -/
theorem claim_C5 (y₁ y₂ : NexlayerYaml) (h : y₁ = y₂) :
    NexlayerApiClient.yamlToString y₁ = NexlayerApiClient.yamlToString y₂ := by
  rw [h]

theorem claim_C5_witness :
    NexlayerApiClient.yamlToString ⟨⟨"x", [⟨"a", "i", none, none, none⟩]⟩⟩ =
      NexlayerApiClient.yamlToString ⟨⟨"x", [⟨"a", "i", none, none, none⟩]⟩⟩ :=
  claim_C5 ⟨⟨"x", [⟨"a", "i", none, none, none⟩]⟩⟩ ⟨⟨"x", [⟨"a", "i", none, none, none⟩]⟩⟩ rfl

/-- Claim C9: once a client is cached, `getClient` returns the cached
instance unchanged and ignores its `sessionToken` argument; the first
call's session token and the fixed base URL stay in effect. -/
theorem claim_C9 :
    (∀ (c : NexlayerConfig) (tok : Option String), getClient (some c) tok = (c, some c))
    ∧ (∀ (tok₁ tok₂ : Option String),
        (getClient (getClient none tok₁).2 tok₂).1 = (getClient none tok₁).1)
    ∧ (∀ (tok : Option String),
        (getClient none tok).1 = ⟨tok, some "https://app.nexlayer.io"⟩) := by
  refine ⟨fun c tok => rfl, fun tok₁ tok₂ => rfl, fun tok => rfl⟩

/-- Claim C6, counterexample: `FileGenerator.generateNexlayerYaml` quotes
nothing — its rendered manifest contains no double-quote character at all,
so "in every rendered manifest, string scalar values are quoted" is false
for this serializer. -/
theorem claim_C6_cex :
    FileGenerator.generateNexlayerYaml "blog"
        [⟨"web", "nginx", some [80], some [("MODE", "prod")], none⟩] =
      "application:\n  name: blog\n  description: blog application\n\npods:\n  - name: web\n    image: nginx\n    servicePorts:\n      - 80\n    vars:\n      MODE: prod"
    ∧ '"' ∉ (FileGenerator.generateNexlayerYaml "blog"
        [⟨"web", "nginx", some [80], some [("MODE", "prod")], none⟩]).data :=
  ⟨by decide, by decide⟩

/-- Claim C6, amended: in manifests rendered by
`NexlayerApiClient.yamlToString`, string scalars are quoted, integers are
unquoted, and each pod block lists `name`, `image`, `servicePorts`,
`vars`, `secrets` in that order; `FileGenerator.generateNexlayerYaml`
instead renders every scalar unquoted (counterexample above). -/
theorem claim_C6 :
    (∀ (y : NexlayerYaml),
      NexlayerApiClient.yamlToString y =
        "application:\n  name: \"" ++ y.application.name ++ "\"\n  pods:\n"
          ++ joinStrings (y.application.pods.map (fun pod =>
            "    - name: \"" ++ pod.name ++ "\"\n"
              ++ "      image: \"" ++ pod.image ++ "\"\n"
              ++ portsSection pod.servicePorts
              ++ varsSection pod.vars
              ++ secretsSection pod.secrets)))
    ∧ (∀ (ports : List Nat), ports ≠ [] →
        portsSection (some ports) =
          "      servicePorts:\n"
            ++ joinStrings (ports.map (fun port => "        - " ++ natToString port ++ "\n")))
    ∧ (∀ (vs : List (String × String)), vs ≠ [] →
        varsSection (some vs) =
          "      vars:\n"
            ++ joinStrings (vs.map (fun kv => "        " ++ kv.1 ++ ": \"" ++ kv.2 ++ "\"\n")))
    ∧ (∀ (secrets : List SecretConfig), secrets ≠ [] →
        secretsSection (some secrets) =
          "      secrets:\n" ++ joinStrings (secrets.map secretBlock))
    ∧ (∀ (sc : SecretConfig),
        secretBlock sc =
          "        - name: \"" ++ sc.name ++ "\"\n"
            ++ "          data: \"" ++ sc.data ++ "\"\n"
            ++ "          mountPath: \"" ++ sc.mountPath ++ "\"\n"
            ++ "          fileName: \"" ++ sc.fileName ++ "\"\n") := by
  refine ⟨fun y => yamlToString_eq y, fun ports h => ?_, fun vs h => ?_,
    fun secrets h => ?_, fun sc => rfl⟩
  · cases ports with
    | nil => exact absurd rfl h
    | cons p ps => exact portsSection_cons p ps
  · cases vs with
    | nil => exact absurd rfl h
    | cons kv kvs => exact varsSection_cons kv kvs
  · cases secrets with
    | nil => exact absurd rfl h
    | cons sc scs => exact secretsSection_cons sc scs

theorem claim_C6_witness :
    portsSection (some [80]) =
      "      servicePorts:\n"
        ++ joinStrings ([80].map (fun port => "        - " ++ natToString port ++ "\n"))
    ∧ varsSection (some [("MODE", "prod")]) =
      "      vars:\n"
        ++ joinStrings ([("MODE", "prod")].map
          (fun kv => "        " ++ kv.1 ++ ": \"" ++ kv.2 ++ "\"\n"))
    ∧ secretsSection (some [⟨"s", "d", "m", "f"⟩]) =
      "      secrets:\n" ++ joinStrings ([(⟨"s", "d", "m", "f"⟩ : SecretConfig)].map secretBlock) :=
  ⟨claim_C6.2.1 [80] (by decide),
   claim_C6.2.2.1 [("MODE", "prod")] (by decide),
   claim_C6.2.2.2.1 [⟨"s", "d", "m", "f"⟩] (by decide)⟩

/-- Claim C7: when a pod's optional collections are absent or empty, the
rendered text omits the `servicePorts`, `vars` and `secrets` keys
entirely — the pod block is exactly its `name` and `image` lines; the same
holds for `FileGenerator.generateNexlayerYaml` and its two optional
sections. -/
theorem claim_C7 :
    (∀ (y : NexlayerYaml),
      (∀ pod ∈ y.application.pods,
        (pod.servicePorts = none ∨ pod.servicePorts = some [])
        ∧ (pod.vars = none ∨ pod.vars = some [])
        ∧ (pod.secrets = none ∨ pod.secrets = some [])) →
      NexlayerApiClient.yamlToString y =
        "application:\n  name: \"" ++ y.application.name ++ "\"\n  pods:\n"
          ++ joinStrings (y.application.pods.map (fun pod =>
            "    - name: \"" ++ pod.name ++ "\"\n"
              ++ "      image: \"" ++ pod.image ++ "\"\n")))
    ∧ (∀ (applicationName : String) (pods : List PodConfig),
      (∀ pod ∈ pods,
        (pod.servicePorts = none ∨ pod.servicePorts = some [])
        ∧ (pod.vars = none ∨ pod.vars = some [])) →
      FileGenerator.generateNexlayerYaml applicationName pods =
        "application:\n  name: " ++ applicationName ++ "\n  description: "
          ++ applicationName ++ " application\n\npods:"
          ++ joinStrings (pods.map (fun pod =>
            "\n  - name: " ++ pod.name ++ "\n    image: " ++ pod.image))) := by
  constructor
  · intro y h
    rw [yamlToString_eq]
    congr 1
    rw [podsBlocks]
    apply congrArg
    apply List.map_congr_left
    intro pod hmem
    obtain ⟨h1, h2, h3⟩ := h pod hmem
    rw [podBlock, portsSection_empty h1, varsSection_empty h2, secretsSection_empty h3]
    simp only [String.append_empty]
  · intro applicationName pods h
    rw [generateNexlayerYaml_eq]
    congr 1
    rw [fgPodsBlocks]
    apply congrArg
    apply List.map_congr_left
    intro pod hmem
    obtain ⟨h1, h2⟩ := h pod hmem
    rw [fgPodBlock, fgPortsSection_empty h1, fgVarsSection_empty h2]
    simp only [String.append_empty]

theorem claim_C7_witness :
    NexlayerApiClient.yamlToString ⟨⟨"x", [⟨"a", "i", some [], none, some []⟩]⟩⟩ =
      "application:\n  name: \"" ++ "x" ++ "\"\n  pods:\n"
        ++ joinStrings ([(⟨"a", "i", some [], none, some []⟩ : PodConfig)].map (fun pod =>
          "    - name: \"" ++ pod.name ++ "\"\n"
            ++ "      image: \"" ++ pod.image ++ "\"\n")) :=
  claim_C7.1 ⟨⟨"x", [⟨"a", "i", some [], none, some []⟩]⟩⟩ (by decide)

/-- Claim C10: `FileGenerator.generateNexlayerYaml` never emits secrets —
its output is unchanged when every pod's secrets are erased — and its
output carries a `description:` line and a top-level sibling `pods:` key,
while `NexlayerApiClient.yamlToString`'s output is exactly the
`application:`/`name`/`pods` header followed by pod blocks, with no
description line and `pods` nested under `application`. -/
theorem claim_C10 :
    (∀ (applicationName : String) (pods : List PodConfig),
      FileGenerator.generateNexlayerYaml applicationName pods =
        FileGenerator.generateNexlayerYaml applicationName
          (pods.map (fun pod => { pod with secrets := none })))
    ∧ (∀ (applicationName : String) (pods : List PodConfig),
      FileGenerator.generateNexlayerYaml applicationName pods =
        "application:\n  name: " ++ applicationName ++ "\n  description: "
          ++ applicationName ++ " application\n\npods:" ++ fgPodsBlocks pods)
    ∧ (∀ (y : NexlayerYaml),
      NexlayerApiClient.yamlToString y =
        "application:\n  name: \"" ++ y.application.name ++ "\"\n  pods:\n"
          ++ podsBlocks y.application.pods) := by
  refine ⟨fun applicationName pods => ?_, fun a p => generateNexlayerYaml_eq a p,
    fun y => yamlToString_eq y⟩
  rw [generateNexlayerYaml_eq, generateNexlayerYaml_eq]
  congr 1
  rw [fgPodsBlocks, fgPodsBlocks, List.map_map]
  apply congrArg
  apply List.map_congr_left
  intro pod _
  rfl

/-- Claim C4, counterexample: `validateYaml` is not a pure function of the
in-memory manifest — with the same `yamlContent`, two different remote
`/validate` responses give two different results, so the result depends on
the network response, not on local computation. -/
theorem claim_C4_cex :
    NexlayerApiClient.validateYaml (fun _ => Except.ok ⟨true, none, none⟩) "application:" ≠
      NexlayerApiClient.validateYaml
        (fun _ => Except.ok ⟨false, some ["boom"], none⟩) "application:" := by
  intro h
  simp [NexlayerApiClient.validateYaml] at h

/-- Claim C4, amended: local validation does not exist — `validateYaml`
delegates entirely to the remote `/validate` endpoint, returning the
remote verdict verbatim on success and wrapping the transport error
message on failure; no findings are computed or accumulated locally. -/
theorem claim_C4 :
    (∀ (remote : String → Except String ValidationResult) (yamlContent : String)
        (r : ValidationResult),
      NexlayerApiClient.validateYaml remote yamlContent = Except.ok r ↔
        remote yamlContent = Except.ok r)
    ∧ (∀ (remote : String → Except String ValidationResult) (yamlContent : String)
        (e : String),
      NexlayerApiClient.validateYaml remote yamlContent = Except.error e ↔
        ∃ msg, remote yamlContent = Except.error msg
          ∧ e = "Failed to validate YAML: " ++ msg) := by
  constructor
  · intro remote yamlContent r
    cases h : remote yamlContent <;>
      simp [NexlayerApiClient.validateYaml, h]
  · intro remote yamlContent e
    cases h : remote yamlContent <;>
      simp [NexlayerApiClient.validateYaml, h, eq_comm]

/-- Claim C1, counterexample: round-tripping fails on the code as the
claim states it.  Two structurally different valid Applications — one
with two plain pods, one whose single pod has an image containing a quote
and newlines that spell out a second pod block — render to the same text,
so no parser can recover both; in particular the modelled `parseManifest`
returns the two-pod application, not the one-pod original. -/
theorem claim_C1_cex :
    NexlayerApiClient.yamlToString
        ⟨⟨"x", [⟨"p", "i", none, none, none⟩, ⟨"q", "j", none, none, none⟩]⟩⟩ =
      NexlayerApiClient.yamlToString
        ⟨⟨"x", [⟨"p", "i\"\n    - name: \"q\"\n      image: \"j", none, none, none⟩]⟩⟩
    ∧ (⟨⟨"x", [⟨"p", "i", none, none, none⟩, ⟨"q", "j", none, none, none⟩]⟩⟩ : NexlayerYaml) ≠
      ⟨⟨"x", [⟨"p", "i\"\n    - name: \"q\"\n      image: \"j", none, none, none⟩]⟩⟩
    ∧ SpecValid ⟨⟨"x", [⟨"p", "i", none, none, none⟩, ⟨"q", "j", none, none, none⟩]⟩⟩
    ∧ SpecValid ⟨⟨"x", [⟨"p", "i\"\n    - name: \"q\"\n      image: \"j", none, none, none⟩]⟩⟩
    ∧ parseManifest (NexlayerApiClient.yamlToString
        ⟨⟨"x", [⟨"p", "i\"\n    - name: \"q\"\n      image: \"j", none, none, none⟩]⟩⟩) ≠
      some ⟨⟨"x", [⟨"p", "i\"\n    - name: \"q\"\n      image: \"j", none, none, none⟩]⟩⟩ :=
  ⟨by decide, by decide, by decide, by decide, by decide⟩

/-- Claim C1, amended: for every valid Application that is also clean —
no newline in any rendered string field, no colon in var names, and
optional collections absent rather than present-but-empty — parsing the
rendered manifest succeeds and returns the Application itself. -/
theorem claim_C1 (y : NexlayerYaml) (_hvalid : SpecValid y) (hclean : AppClean y) :
    parseManifest (NexlayerApiClient.yamlToString y) = some y :=
  parseManifest_yamlToString y hclean

theorem claim_C1_witness :
    SpecValid ⟨⟨"blog", [⟨"web", "nginx:1.25", some [80],
        some [("MODE", "prod")], some [⟨"s", "d", "/etc", "f.txt"⟩]⟩]⟩⟩
    ∧ AppClean ⟨⟨"blog", [⟨"web", "nginx:1.25", some [80],
        some [("MODE", "prod")], some [⟨"s", "d", "/etc", "f.txt"⟩]⟩]⟩⟩
    ∧ parseManifest (NexlayerApiClient.yamlToString
        ⟨⟨"blog", [⟨"web", "nginx:1.25", some [80],
          some [("MODE", "prod")], some [⟨"s", "d", "/etc", "f.txt"⟩]⟩]⟩⟩) =
      some ⟨⟨"blog", [⟨"web", "nginx:1.25", some [80],
        some [("MODE", "prod")], some [⟨"s", "d", "/etc", "f.txt"⟩]⟩]⟩⟩ :=
  ⟨by decide, by decide,
   claim_C1 ⟨⟨"blog", [⟨"web", "nginx:1.25", some [80],
     some [("MODE", "prod")], some [⟨"s", "d", "/etc", "f.txt"⟩]⟩]⟩⟩ (by decide) (by decide)⟩

/-- Claim C8, counterexample: `servicePorts` is not treated as a set —
the duplicate entry `[80, 80]` is rendered twice, so a port can appear
more than once in the output. -/
theorem claim_C8_cex :
    NexlayerApiClient.generateYaml "x" [⟨"a", "img", some [80, 80], none, none⟩] =
      "application:\n  name: \"x\"\n  pods:\n    - name: \"a\"\n      image: \"img\"\n      servicePorts:\n        - 80\n        - 80\n"
    ∧ (splitLines (NexlayerApiClient.generateYaml "x"
        [⟨"a", "img", some [80, 80], none, none⟩]).data).count "        - 80".data = 2 :=
  ⟨by decide, by decide⟩

/-- Claim C8, amended: duplicates are preserved, not collapsed — the
rendered `servicePorts` section lists the caller's entries verbatim in
the given order, and each port value occurs in the rendered item list
exactly as often as in the input list. -/
theorem claim_C8 :
    (∀ (applicationName podName image : String) (ports : List Nat), ports ≠ [] →
      NexlayerApiClient.generateYaml applicationName
          [⟨podName, image, some ports, none, none⟩] =
        "application:\n  name: \"" ++ applicationName ++ "\"\n  pods:\n"
          ++ "    - name: \"" ++ podName ++ "\"\n"
          ++ "      image: \"" ++ image ++ "\"\n"
          ++ "      servicePorts:\n"
          ++ joinStrings (ports.map (fun port => "        - " ++ natToString port ++ "\n")))
    ∧ (∀ (ports : List Nat) (p : Nat),
        (ports.map (fun port => "        - " ++ natToString port ++ "\n")).count
            ("        - " ++ natToString p ++ "\n") = ports.count p) := by
  constructor
  · intro applicationName podName image ports hne
    rw [generateYaml_eq]
    cases ports with
    | nil => exact absurd rfl hne
    | cons p ps =>
      simp only [podsBlocks, List.map, joinStrings, podBlock, portsSection_cons,
        varsSection, secretsSection, String.append_assoc, String.append_empty]
  · intro ports p
    have hinj : Function.Injective
        (fun port => "        - " ++ natToString port ++ "\n") := by
      intro a b hab
      apply natToString_injective
      have h1 : ("        - " ++ natToString a ++ "\n").data =
          ("        - " ++ natToString b ++ "\n").data := congrArg String.data hab
      simp only [String.data_append, List.append_assoc] at h1
      have h2 := List.append_cancel_left h1
      have h3 := List.append_cancel_right h2
      exact String.ext h3
    exact List.count_map_of_injective ports _ hinj p

theorem claim_C8_witness :
    NexlayerApiClient.generateYaml "x" [⟨"a", "i", some [80, 80], none, none⟩] =
      "application:\n  name: \"" ++ "x" ++ "\"\n  pods:\n"
        ++ "    - name: \"" ++ "a" ++ "\"\n"
        ++ "      image: \"" ++ "i" ++ "\"\n"
        ++ "      servicePorts:\n"
        ++ joinStrings ([80, 80].map (fun port => "        - " ++ natToString port ++ "\n")) :=
  claim_C8.1 "x" "a" "i" [80, 80] (by decide)

